import Mathlib

/-!
Verification of a patient-record CRUD service (`src/main.py`).

Numbers: Python floats are modelled as exact rationals (`ℚ`); `round(x, 2)`
is modelled as CPython's documented round-half-to-even on the exact value.
The JSON store (a dict keyed by patient id, insertion-ordered) is modelled
as an association list with in-place replacement on key reuse.
Each HTTP handler is a function from the loaded store and its parsed input
to a response together with the store left on disk after the request
(equal to the input store whenever the handler raises before saving).
-/

namespace PatientApp

/-- CPython `round` to an integer: round half to even. -/
def roundHalfEven (x : ℚ) : ℤ :=
  if x - ⌊x⌋ < 1/2 then ⌊x⌋
  else if 1/2 < x - ⌊x⌋ then ⌊x⌋ + 1
  else if ⌊x⌋ % 2 = 0 then ⌊x⌋ else ⌊x⌋ + 1

/-- Python `round(x, 2)`. -/
def pyRound2 (x : ℚ) : ℚ := (roundHalfEven (x * 100) : ℚ) / 100

/-- The `Patient` pydantic model: fields after successful validation.
`bmi` and `verdict` are computed fields, defined below. -/
structure Patient where
  id : String
  name : String
  city : String
  age : ℤ
  gender : String
  height : ℚ
  weight : ℚ
deriving DecidableEq, Repr

/-- `Patient.bmi`: `round(self.weight / (self.height ** 2), 2)`. -/
def Patient.bmi (p : Patient) : ℚ := pyRound2 (p.weight / p.height ^ 2)

/-- The `verdict` branch chain, as a function of the bmi value. -/
def verdictFor (bmi : ℚ) : String :=
  if bmi < 18.5 then "Underweight"
  else if 18.5 ≤ bmi ∧ bmi < 24.9 then "Normal weight"
  else if 25 ≤ bmi ∧ bmi < 29.9 then "Overweight"
  else "Obesity"

/-- `Patient.verdict`: the branch chain evaluated at `self.bmi`. -/
def Patient.verdict (p : Patient) : String := verdictFor p.bmi

/-- Gender must be one of the `Literal['male','female','others']` values. -/
def genderValid (g : String) : Bool :=
  g == "male" || g == "female" || g == "others"

/-- Pydantic validation of the full `Patient` model: `age` has `gt=0, lt=120`,
`height` and `weight` have `gt=0`, `gender` is checked against the literal set;
`id`, `name`, `city` are plain `str` fields with no further constraint. -/
def mkPatient (id name city : String) (age : ℤ) (gender : String)
    (height weight : ℚ) : Except String Patient :=
  if ¬ 0 < age then .error "age: Input should be greater than 0"
  else if ¬ age < 120 then .error "age: Input should be less than 120"
  else if ¬ genderValid gender then .error "gender: Input should be male, female or others"
  else if ¬ 0 < height then .error "height: Input should be greater than 0"
  else if ¬ 0 < weight then .error "weight: Input should be greater than 0"
  else .ok ⟨id, name, city, age, gender, height, weight⟩

/-- The `PatientUpdate` pydantic model: all fields optional (`None` = unset). -/
structure PatientUpdate where
  name : Option String
  city : Option String
  age : Option ℤ
  gender : Option String
  height : Option ℚ
  weight : Option ℚ
deriving DecidableEq, Repr

/-- Pydantic validation of `PatientUpdate`: each supplied numeric field has
`gt=0` (note: no upper bound on `age`), a supplied gender is checked against
the literal set; `name` and `city` are unconstrained. -/
def mkPatientUpdate (name city : Option String) (age : Option ℤ)
    (gender : Option String) (height weight : Option ℚ) :
    Except String PatientUpdate :=
  if age.any (fun a => decide (a ≤ 0)) then .error "age: Input should be greater than 0"
  else if gender.any (fun g => !genderValid g) then .error "gender: Input should be male, female or others"
  else if height.any (fun h => decide (h ≤ 0)) then .error "height: Input should be greater than 0"
  else if weight.any (fun w => decide (w ≤ 0)) then .error "weight: Input should be greater than 0"
  else .ok ⟨name, city, age, gender, height, weight⟩

/-- One stored record of `patients.json`: `model_dump(exclude=['id'])` of a
validated `Patient`, so the derived `bmi` and `verdict` are stored too. -/
structure StoredRec where
  name : String
  city : String
  age : ℤ
  gender : String
  height : ℚ
  weight : ℚ
  bmi : ℚ
  verdict : String
deriving DecidableEq, Repr

/-- `patient.model_dump(exclude=['id'])`. -/
def dumpPatient (p : Patient) : StoredRec :=
  ⟨p.name, p.city, p.age, p.gender, p.height, p.weight, p.bmi, p.verdict⟩

/-- The JSON store: a dict from patient id to record, in insertion order. -/
abbrev Collection := List (String × StoredRec)

/-- Dict lookup `data[k]` (first binding wins). -/
def dictGet? : Collection → String → Option StoredRec
  | [], _ => none
  | (k, v) :: rest, key => if k = key then some v else dictGet? rest key

/-- Dict membership `k in data`. -/
def dictMem (d : Collection) (k : String) : Bool := (dictGet? d k).isSome

/-- Dict assignment `data[k] = v`: replaces an existing binding in place,
otherwise appends at the end (Python dict insertion order). -/
def dictSet : Collection → String → StoredRec → Collection
  | [], key, v => [(key, v)]
  | (k, w) :: rest, key, v =>
    if k = key then (key, v) :: rest else (k, w) :: dictSet rest key v

/-- Dict deletion `del data[k]`. -/
def dictDel : Collection → String → Collection
  | [], _ => []
  | (k, v) :: rest, key => if k = key then rest else (k, v) :: dictDel rest key

/-- `data.values()` in insertion order. -/
def dictValues (d : Collection) : List StoredRec := d.map Prod.snd

/-- A handler outcome: a JSON response with its status code, or an
`HTTPException` (or uncaught error) with its status code and detail. -/
inductive HResp (α : Type) where
  | ok (status : ℕ) (val : α)
  | err (status : ℕ) (detail : String)
deriving DecidableEq, Repr

/-- `POST /create` handler body, after the request body parsed into a
`Patient`: 400 if the id exists, else store `model_dump(exclude=['id'])`. -/
def create_patient (data : Collection) (patient : Patient) :
    HResp String × Collection :=
  if dictMem data patient.id then
    (.err 400 "Patient Already Exists", data)
  else
    (.ok 201 patient.id, dictSet data patient.id (dumpPatient patient))

/-- The full `POST /create` endpoint: FastAPI first validates the body as a
`Patient` (422 on failure), then runs the handler. -/
def createEndpoint (data : Collection) (id name city : String) (age : ℤ)
    (gender : String) (height weight : ℚ) : HResp String × Collection :=
  match mkPatient id name city age gender height weight with
  | .error e => (.err 422 e, data)
  | .ok p => create_patient data p

/-- `PUT /update/{patient_id}` handler body, after the body parsed into a
`PatientUpdate`: 400 if the id is absent; otherwise the supplied fields are
merged onto the stored ones (`model_dump(exclude_unset=True)` loop), the
merged record is re-validated as a full `Patient` (an uncaught
`ValidationError` surfaces as a 500), and its dump replaces the stored one. -/
def update_patient (data : Collection) (patient_id : String)
    (patient_update : PatientUpdate) : HResp String × Collection :=
  match dictGet? data patient_id with
  | none => (.err 400 "Patient Does Not Exists", data)
  | some existing =>
    match mkPatient patient_id
        (patient_update.name.getD existing.name)
        (patient_update.city.getD existing.city)
        (patient_update.age.getD existing.age)
        (patient_update.gender.getD existing.gender)
        (patient_update.height.getD existing.height)
        (patient_update.weight.getD existing.weight) with
    | .error e => (.err 500 e, data)
    | .ok p => (.ok 201 patient_id, dictSet data patient_id (dumpPatient p))

/-- `DELETE /delete/{patient_id}`: 400 if absent, else remove and save. -/
def delete (data : Collection) (patient_id : String) :
    HResp String × Collection :=
  if dictMem data patient_id then
    (.ok 200 patient_id, dictDel data patient_id)
  else
    (.err 400 "Patient Does Not Exists", data)

/-- Stable insertion of `x` into a list sorted by `key` (before the first
element whose key is ≥, so earlier elements stay ahead of equal keys). -/
def insortK {α : Type} (key : α → ℚ) (x : α) : List α → List α
  | [] => [x]
  | y :: ys => if key x ≤ key y then x :: y :: ys else y :: insortK key x ys

/-- Stable ascending sort by `key`: the semantics of Python `sorted` with a
key function (any stable sort; realised here as insertion sort). -/
def sortedByKey {α : Type} (key : α → ℚ) : List α → List α
  | [] => []
  | x :: xs => insortK key x (sortedByKey key xs)

/-- Python `sorted(xs, key=key, reverse=rev)`: with `reverse=True`, CPython
reverses the list, sorts it stably ascending, and reverses again, so records
with equal keys keep their original relative order. -/
def pySorted {α : Type} (key : α → ℚ) (xs : List α) (rev : Bool) : List α :=
  if rev then (sortedByKey key xs.reverse).reverse else sortedByKey key xs

def valid_sort_fields : List String := ["height", "weight", "bmi", "age"]

/-- The sort key `x.get(sort_by, 0)` for one of the allowlisted fields
(`age` is an int in JSON; Python compares numbers uniformly). -/
def sortKey (sort_by : String) (r : StoredRec) : ℚ :=
  if sort_by = "height" then r.height
  else if sort_by = "weight" then r.weight
  else if sort_by = "bmi" then r.bmi
  else if sort_by = "age" then (r.age : ℚ)
  else 0

/-- `GET /sort`: 400 on a sort field outside the allowlist, then 400 on an
order outside asc/dsc, else the sorted values; the store is never written. -/
def sort_patients (data : Collection) (sort_by order : String) :
    HResp (List StoredRec) × Collection :=
  if sort_by ∉ valid_sort_fields then
    (.err 400 "Invalid sort field. Choose from {valid_sort_fields}.", data)
  else if ¬ (order = "asc" ∨ order = "dsc") then
    (.err 400 "Invalid order. Choose asc or dsc.", data)
  else
    (.ok 200 (pySorted (sortKey sort_by) (dictValues data) (order == "dsc")), data)

/-- The numeric/enumeration constraints that full-record validation imposes,
read off a stored record. -/
def StoredRec.Valid (r : StoredRec) : Prop :=
  0 < r.age ∧ r.age < 120 ∧ genderValid r.gender = true ∧ 0 < r.height ∧ 0 < r.weight

/-- Every binding of the collection satisfies the full-record constraints. -/
def CollValid (d : Collection) : Prop := ∀ x ∈ d, StoredRec.Valid x.2

/-- The update payload `{}`: no field set. -/
def emptyUpdate : PatientUpdate := ⟨none, none, none, none, none, none⟩

/-- The spec §8 end-to-end example patient (height 1.75 m, weight 70 kg). -/
def examplePatient : Patient := ⟨"P001", "A", "X", 30, "male", 7/4, 70⟩

/-- The stored form of `examplePatient`. -/
def exampleStored : StoredRec := dumpPatient examplePatient

/-- A one-record collection holding `examplePatient`. -/
def exampleColl : Collection := [("P001", exampleStored)]

/-- The spec §8 partial-update payload `{weight: 100}`. -/
def weightUpdate : PatientUpdate := ⟨none, none, none, none, none, some 100⟩

/-- A stored record with bmi 22, for the sorting examples. -/
def tieRec1 : StoredRec := ⟨"A", "X", 30, "male", 2, 88, 22, "Normal weight"⟩

/-- A second stored record with the same bmi 22 but different name. -/
def tieRec2 : StoredRec := ⟨"B", "Y", 40, "female", 2, 88, 22, "Normal weight"⟩

/-- A collection whose two records tie on bmi. -/
def tieColl : Collection := [("P1", tieRec1), ("P2", tieRec2)]

/-- A stored record with bmi 30, for the distinct-keys sorting example. -/
def distinctRec : StoredRec := ⟨"C", "Z", 50, "others", 2, 120, 30, "Obesity"⟩

/-- A collection whose two records have distinct bmi values 22 and 30. -/
def distinctColl : Collection := [("P1", tieRec1), ("P2", distinctRec)]

/-! ### Association-list (dict) lemmas -/

theorem dictGet?_set_self (d : Collection) (k : String) (v : StoredRec) :
    dictGet? (dictSet d k v) k = some v := by
  induction d with
  | nil => simp [dictSet, dictGet?]
  | cons hd tl ih =>
    obtain ⟨k', w⟩ := hd
    by_cases h : k' = k <;> simp [dictSet, dictGet?, h, ih]

theorem dictGet?_set_ne (d : Collection) (k k' : String) (v : StoredRec)
    (h : k' ≠ k) : dictGet? (dictSet d k v) k' = dictGet? d k' := by
  have hk : k ≠ k' := fun he => h he.symm
  induction d with
  | nil => simp [dictSet, dictGet?, hk]
  | cons hd tl ih =>
    obtain ⟨k₀, w⟩ := hd
    by_cases h0 : k₀ = k
    · subst h0
      simp [dictSet, dictGet?, hk]
    · simp [dictSet, dictGet?, h0, ih]

theorem dictSet_self (d : Collection) (k : String) (v : StoredRec)
    (h : dictGet? d k = some v) : dictSet d k v = d := by
  induction d with
  | nil => simp [dictGet?] at h
  | cons hd tl ih =>
    obtain ⟨k', w⟩ := hd
    by_cases h0 : k' = k
    · subst h0
      simp [dictGet?] at h
      simp [dictSet, h]
    · simp [dictGet?, h0] at h
      simp [dictSet, h0, ih h]

theorem mem_dictSet (d : Collection) (k : String) (v : StoredRec)
    (x : String × StoredRec) (hx : x ∈ dictSet d k v) : x = (k, v) ∨ x ∈ d := by
  induction d with
  | nil => simpa [dictSet] using hx
  | cons hd tl ih =>
    obtain ⟨k', w⟩ := hd
    by_cases h0 : k' = k
    · simp [dictSet, h0] at hx
      rcases hx with h | h
      · exact Or.inl (by simp [h])
      · exact Or.inr (by simp [h])
    · simp [dictSet, h0] at hx
      rcases hx with h | h
      · exact Or.inr (by simp [h])
      · rcases ih h with h' | h'
        · exact Or.inl h'
        · exact Or.inr (by simp [h'])

theorem mem_dictDel (d : Collection) (k : String)
    (x : String × StoredRec) (hx : x ∈ dictDel d k) : x ∈ d := by
  induction d with
  | nil => simp [dictDel] at hx
  | cons hd tl ih =>
    obtain ⟨k', w⟩ := hd
    by_cases h0 : k' = k
    · simp [dictDel, h0] at hx
      exact List.mem_cons_of_mem _ hx
    · simp [dictDel, h0] at hx
      rcases hx with h | h
      · exact by simp [h]
      · exact List.mem_cons_of_mem _ (ih h)

/-! ### Validation lemmas -/

theorem mkPatient_ok {id name city : String} {age : ℤ} {gender : String}
    {height weight : ℚ} {p : Patient}
    (h : mkPatient id name city age gender height weight = .ok p) :
    p = ⟨id, name, city, age, gender, height, weight⟩ ∧
      0 < age ∧ age < 120 ∧ genderValid gender = true ∧ 0 < height ∧ 0 < weight := by
  unfold mkPatient at h
  split_ifs at h with h1 h2 h3 h4 h5
  refine ⟨by injection h with h; exact h.symm, ?_, ?_, ?_, ?_, ?_⟩ <;>
    simp_all [not_not]

theorem mkPatient_of_valid {id name city : String} {age : ℤ} {gender : String}
    {height weight : ℚ} (h1 : 0 < age) (h2 : age < 120)
    (h3 : genderValid gender = true) (h4 : 0 < height) (h5 : 0 < weight) :
    mkPatient id name city age gender height weight =
      .ok ⟨id, name, city, age, gender, height, weight⟩ := by
  simp [mkPatient, h1, h2, h3, h4, h5]

/-! ### Verdict branch lemmas -/

theorem verdictFor_underweight {b : ℚ} (h : b < 18.5) :
    verdictFor b = "Underweight" := by
  rw [verdictFor, if_pos h]

theorem verdictFor_normal {b : ℚ} (h1 : 18.5 ≤ b) (h2 : b < 24.9) :
    verdictFor b = "Normal weight" := by
  rw [verdictFor, if_neg (not_lt.mpr h1), if_pos ⟨h1, h2⟩]

theorem verdictFor_overweight {b : ℚ} (h1 : 25 ≤ b) (h2 : b < 29.9) :
    verdictFor b = "Overweight" := by
  have hA : ¬ b < 18.5 := by intro hc; linarith
  have hB : ¬ (18.5 ≤ b ∧ b < 24.9) := by intro hc; linarith [hc.2]
  rw [verdictFor, if_neg hA, if_neg hB, if_pos ⟨h1, h2⟩]

theorem verdictFor_obesity_gap {b : ℚ} (h1 : 24.9 ≤ b) (h2 : b < 25) :
    verdictFor b = "Obesity" := by
  have hA : ¬ b < 18.5 := by intro hc; linarith
  have hB : ¬ (18.5 ≤ b ∧ b < 24.9) := by intro hc; linarith [hc.2]
  have hC : ¬ (25 ≤ b ∧ b < 29.9) := by intro hc; linarith [hc.1]
  rw [verdictFor, if_neg hA, if_neg hB, if_neg hC]

theorem verdictFor_obesity_high {b : ℚ} (h1 : 29.9 ≤ b) :
    verdictFor b = "Obesity" := by
  have hA : ¬ b < 18.5 := by intro hc; linarith
  have hB : ¬ (18.5 ≤ b ∧ b < 24.9) := by intro hc; linarith [hc.2]
  have hC : ¬ (25 ≤ b ∧ b < 29.9) := by intro hc; linarith [hc.2]
  rw [verdictFor, if_neg hA, if_neg hB, if_neg hC]

/-- C1: for every patient record with height > 0 and weight > 0, the derived
bmi equals round(weight / height^2, 2), and the verdict follows the branch
table: bmi < 18.5 is "Underweight", 18.5 ≤ bmi < 24.9 is "Normal weight",
25 ≤ bmi < 29.9 is "Overweight", and every other bmi — including the gap
[24.9, 25) and everything ≥ 29.9 — is "Obesity". -/
theorem bmi_verdict_branch_table (p : Patient)
    (_hh : 0 < p.height) (_hw : 0 < p.weight) :
    p.bmi = pyRound2 (p.weight / p.height ^ 2) ∧
    (p.bmi < 18.5 → p.verdict = "Underweight") ∧
    (18.5 ≤ p.bmi → p.bmi < 24.9 → p.verdict = "Normal weight") ∧
    (25 ≤ p.bmi → p.bmi < 29.9 → p.verdict = "Overweight") ∧
    (24.9 ≤ p.bmi → p.bmi < 25 → p.verdict = "Obesity") ∧
    (29.9 ≤ p.bmi → p.verdict = "Obesity") :=
  ⟨rfl, fun h => verdictFor_underweight h,
    fun h1 h2 => verdictFor_normal h1 h2,
    fun h1 h2 => verdictFor_overweight h1 h2,
    fun h1 h2 => verdictFor_obesity_gap h1 h2,
    fun h1 => verdictFor_obesity_high h1⟩

theorem examplePatient_bmi : examplePatient.bmi = 1143 / 50 := by
  norm_num [examplePatient, Patient.bmi, pyRound2, roundHalfEven]

/-- Witness for C1 at the spec §8 example: height 1.75, weight 70 gives
bmi 22.86 and verdict "Normal weight". -/
theorem bmi_verdict_branch_table_witness :
    (0 : ℚ) < examplePatient.height ∧ (0 : ℚ) < examplePatient.weight ∧
    examplePatient.bmi = pyRound2 (examplePatient.weight / examplePatient.height ^ 2) ∧
    examplePatient.bmi = 2286 / 100 ∧
    examplePatient.verdict = "Normal weight" :=
  ⟨by norm_num [examplePatient], by norm_num [examplePatient],
    (bmi_verdict_branch_table examplePatient (by norm_num [examplePatient])
      (by norm_num [examplePatient])).1,
    by rw [examplePatient_bmi]; norm_num,
    (bmi_verdict_branch_table examplePatient (by norm_num [examplePatient])
      (by norm_num [examplePatient])).2.2.1
      (by rw [examplePatient_bmi]; norm_num) (by rw [examplePatient_bmi]; norm_num)⟩

/-- C7: creating a patient whose id is already in the collection raises an
HTTP 400 "Patient Already Exists" and the stored collection is unchanged. -/
theorem create_conflict (data : Collection) (p : Patient)
    (h : dictMem data p.id = true) :
    create_patient data p = (.err 400 "Patient Already Exists", data) := by
  simp [create_patient, h]

/-- Witness for C7: creating "P001" over a collection already holding it. -/
theorem create_conflict_witness :
    dictMem exampleColl examplePatient.id = true ∧
    create_patient exampleColl examplePatient =
      (.err 400 "Patient Already Exists", exampleColl) :=
  ⟨by decide, create_conflict exampleColl examplePatient (by decide)⟩

/-- C8: updating or deleting an id absent from the collection raises an
HTTP 400 "Patient Does Not Exists" and the stored collection is unchanged. -/
theorem update_delete_notfound (data : Collection) (pid : String)
    (u : PatientUpdate) (h : dictGet? data pid = none) :
    update_patient data pid u = (.err 400 "Patient Does Not Exists", data) ∧
    delete data pid = (.err 400 "Patient Does Not Exists", data) := by
  refine ⟨?_, ?_⟩
  · simp [update_patient, h]
  · simp [delete, dictMem, h]

/-- Witness for C8 at an id "P999" absent from the example collection. -/
theorem update_delete_notfound_witness :
    dictGet? exampleColl "P999" = none ∧
    update_patient exampleColl "P999" emptyUpdate =
      (.err 400 "Patient Does Not Exists", exampleColl) ∧
    delete exampleColl "P999" =
      (.err 400 "Patient Does Not Exists", exampleColl) :=
  ⟨by decide,
    (update_delete_notfound exampleColl "P999" emptyUpdate (by decide)).1,
    (update_delete_notfound exampleColl "P999" emptyUpdate (by decide)).2⟩

/-- C9: a sort field outside the allowlist gives HTTP 400, an order outside
asc/dsc gives HTTP 400, and the sort endpoint never changes the store. -/
theorem sort_bad_params_store_untouched (data : Collection) (sb ord : String) :
    (sort_patients data sb ord).2 = data ∧
    (sb ∉ valid_sort_fields →
      (sort_patients data sb ord).1 =
        .err 400 "Invalid sort field. Choose from {valid_sort_fields}.") ∧
    (ord ≠ "asc" → ord ≠ "dsc" →
      ∃ d, (sort_patients data sb ord).1 = .err 400 d) := by
  refine ⟨?_, ?_, ?_⟩
  · unfold sort_patients
    split_ifs <;> rfl
  · intro h
    simp [sort_patients, h]
  · intro h1 h2
    by_cases hc : sb ∈ valid_sort_fields
    · exact ⟨"Invalid order. Choose asc or dsc.",
        by simp [sort_patients, hc, h1, h2]⟩
    · exact ⟨"Invalid sort field. Choose from {valid_sort_fields}.",
        by simp [sort_patients, hc]⟩

/-- Witness for C9: sort field "foo" and order "down" on the example
collection. -/
theorem sort_bad_params_store_untouched_witness :
    (sort_patients exampleColl "foo" "down").2 = exampleColl ∧
    "foo" ∉ valid_sort_fields ∧
    (sort_patients exampleColl "foo" "down").1 =
      .err 400 "Invalid sort field. Choose from {valid_sort_fields}." ∧
    ∃ d, (sort_patients exampleColl "bmi" "down").1 = .err 400 d :=
  ⟨(sort_bad_params_store_untouched exampleColl "foo" "down").1,
    by decide,
    (sort_bad_params_store_untouched exampleColl "foo" "down").2.1 (by decide),
    (sort_bad_params_store_untouched exampleColl "bmi" "down").2.2
      (by decide) (by decide)⟩

/-- C2: a partial update on a stored id merges supplied fields over the
stored ones (supplied fields win, unsupplied fields keep their pre-update
values), recomputes bmi and verdict from the merged height and weight, and
leaves every other record of the collection unchanged. -/
theorem update_partial_merge (data : Collection) (pid : String)
    (u : PatientUpdate) (rec : StoredRec) (p : Patient)
    (hget : dictGet? data pid = some rec)
    (hmk : mkPatient pid (u.name.getD rec.name) (u.city.getD rec.city)
      (u.age.getD rec.age) (u.gender.getD rec.gender)
      (u.height.getD rec.height) (u.weight.getD rec.weight) = .ok p) :
    (update_patient data pid u).1 = .ok 201 pid ∧
    dictGet? (update_patient data pid u).2 pid = some
      { name := u.name.getD rec.name
        city := u.city.getD rec.city
        age := u.age.getD rec.age
        gender := u.gender.getD rec.gender
        height := u.height.getD rec.height
        weight := u.weight.getD rec.weight
        bmi := pyRound2 (u.weight.getD rec.weight / (u.height.getD rec.height) ^ 2)
        verdict :=
          verdictFor (pyRound2 (u.weight.getD rec.weight / (u.height.getD rec.height) ^ 2)) } ∧
    ∀ k, k ≠ pid → dictGet? (update_patient data pid u).2 k = dictGet? data k := by
  obtain ⟨hp, -, -, -, -, -⟩ := mkPatient_ok hmk
  subst hp
  simp only [update_patient, hget, hmk]
  refine ⟨trivial, ?_, ?_⟩
  · rw [dictGet?_set_self]
    simp [dumpPatient, Patient.bmi, Patient.verdict]
  · intro k hk
    exact dictGet?_set_ne data pid k _ hk

/-- Witness for C2: the spec §8 example update `{weight: 100}` on "P001"
recomputes bmi 32.65 and verdict "Obesity", keeping the other fields. -/
theorem update_partial_merge_witness :
    (update_patient exampleColl "P001" weightUpdate).1 = .ok 201 "P001" ∧
    dictGet? (update_patient exampleColl "P001" weightUpdate).2 "P001" =
      some { name := "A", city := "X", age := 30, gender := "male",
             height := 7/4, weight := 100,
             bmi := 3265/100, verdict := "Obesity" } := by
  have h := update_partial_merge exampleColl "P001" weightUpdate exampleStored
    ⟨"P001", "A", "X", 30, "male", 7/4, 100⟩ rfl
    (by norm_num [mkPatient, weightUpdate, exampleStored, dumpPatient,
      examplePatient, genderValid])
  refine ⟨h.1, ?_⟩
  rw [h.2.1]
  norm_num [weightUpdate, exampleStored, dumpPatient, examplePatient,
    pyRound2, roundHalfEven, verdictFor]

/-- C3: every record stored by a successful create or update satisfies the
full-record constraints (0 < age < 120, valid gender, height > 0,
weight > 0): both operations run the merged/new record through the same
full validation before storing, so they preserve collection validity. -/
theorem stored_records_valid (data : Collection) (hd : CollValid data) :
    (∀ id name city age gender hgt wgt,
      CollValid (createEndpoint data id name city age gender hgt wgt).2) ∧
    (∀ pid u, CollValid (update_patient data pid u).2) := by
  constructor
  · intro id name city age gender hgt wgt
    unfold createEndpoint
    cases hmk : mkPatient id name city age gender hgt wgt with
    | error e => simpa using hd
    | ok p =>
      obtain ⟨hp, h1, h2, h3, h4, h5⟩ := mkPatient_ok hmk
      subst hp
      simp only [create_patient]
      by_cases hm : dictMem data id
      · simpa [hm] using hd
      · simp only [hm, Bool.false_eq_true, if_false, if_neg]
        intro x hx
        rcases mem_dictSet _ _ _ _ hx with hx' | hx'
        · subst hx'
          exact ⟨h1, h2, h3, h4, h5⟩
        · exact hd x hx'
  · intro pid u
    unfold update_patient
    cases hget : dictGet? data pid with
    | none => simpa using hd
    | some rec =>
      cases hmk : mkPatient pid (u.name.getD rec.name) (u.city.getD rec.city)
          (u.age.getD rec.age) (u.gender.getD rec.gender)
          (u.height.getD rec.height) (u.weight.getD rec.weight) with
      | error e => simpa [hmk] using hd
      | ok p =>
        obtain ⟨hp, h1, h2, h3, h4, h5⟩ := mkPatient_ok hmk
        subst hp
        simp only [hmk]
        intro x hx
        rcases mem_dictSet _ _ _ _ hx with hx' | hx'
        · subst hx'
          exact ⟨h1, h2, h3, h4, h5⟩
        · exact hd x hx'

/-- Witness for C3: the example collection is valid and stays valid after a
create of "P002" and the `{weight: 100}` update of "P001". -/
theorem stored_records_valid_witness :
    CollValid exampleColl ∧
    CollValid (createEndpoint exampleColl "P002" "B" "Y" 40 "female" 2 80).2 ∧
    CollValid (update_patient exampleColl "P001" weightUpdate).2 := by
  have hv : CollValid exampleColl := by
    intro x hx
    simp only [exampleColl, List.mem_singleton] at hx
    subst hx
    refine ⟨?_, ?_, ?_, ?_, ?_⟩ <;>
      norm_num [exampleStored, dumpPatient, examplePatient, genderValid]
  exact ⟨hv, (stored_records_valid exampleColl hv).1 "P002" "B" "Y" 40 "female" 2 80,
    (stored_records_valid exampleColl hv).2 "P001" weightUpdate⟩

/-- C10: updating a stored id with the empty payload succeeds and leaves the
whole stored collection exactly as it was, provided the stored record meets
the full-record constraints and its stored bmi and verdict agree with the
values recomputed from its height and weight. -/
theorem update_empty_payload_identity (data : Collection) (pid : String)
    (rec : StoredRec) (hget : dictGet? data pid = some rec)
    (hv : rec.Valid)
    (hbmi : rec.bmi = pyRound2 (rec.weight / rec.height ^ 2))
    (hverdict : rec.verdict = verdictFor rec.bmi) :
    update_patient data pid emptyUpdate = (.ok 201 pid, data) := by
  obtain ⟨h1, h2, h3, h4, h5⟩ := hv
  obtain ⟨n, c, a, g, hh, ww, b, v⟩ := rec
  simp only at h1 h2 h3 h4 h5 hbmi hverdict
  have hmk := @mkPatient_of_valid pid n c a g hh ww h1 h2 h3 h4 h5
  have hdump : dumpPatient ⟨pid, n, c, a, g, hh, ww⟩ =
      StoredRec.mk n c a g hh ww b v := by
    simp only [dumpPatient, Patient.bmi, Patient.verdict, StoredRec.mk.injEq,
      true_and]
    refine ⟨hbmi.symm, ?_⟩
    rw [hverdict, hbmi]
  simp only [update_patient, hget, emptyUpdate, Option.getD_none, hmk, hdump]
  rw [dictSet_self data pid _ hget]

/-- Witness for C10: the empty payload on "P001" leaves the example
collection untouched. -/
theorem update_empty_payload_identity_witness :
    update_patient exampleColl "P001" emptyUpdate =
      (.ok 201 "P001", exampleColl) :=
  update_empty_payload_identity exampleColl "P001" exampleStored rfl
    (by refine ⟨?_, ?_, ?_, ?_, ?_⟩ <;>
      norm_num [exampleStored, dumpPatient, examplePatient, genderValid])
    rfl rfl

/-- Helper: when an `Option.any` check comes out false, every contained
value fails the check. -/
theorem option_any_eq_true {α : Type} (o : Option α) (p : α → Bool) :
    o.any p = true ↔ ∃ a, a ∈ o ∧ p a = true := by
  cases o <;> simp

/-- C6 counterexample: creating a record whose name and city are the empty
string succeeds (no ValidationError) and the empty strings are stored. -/
theorem create_empty_name_city_cex :
    (createEndpoint [] "P1" "" "" 30 "male" 2 80).1 = .ok 201 "P1" ∧
    (dictGet? (createEndpoint [] "P1" "" "" 30 "male" 2 80).2 "P1").map
      StoredRec.name = some "" ∧
    (dictGet? (createEndpoint [] "P1" "" "" 30 "male" 2 80).2 "P1").map
      StoredRec.city = some "" := by
  norm_num [createEndpoint, mkPatient, genderValid, create_patient, dictMem,
    dictGet?, dictSet, dumpPatient]

/-- C6 amended: the code puts no constraint at all on name or city —
validation succeeds with the empty name and city whenever it succeeds with
any name and city, and a create with empty name and city stores the empty
strings rather than failing. -/
theorem create_accepts_empty_name_city (data : Collection)
    (id name city : String) (age : ℤ) (gender : String) (hgt wgt : ℚ)
    (p : Patient) (hmk : mkPatient id "" "" age gender hgt wgt = .ok p)
    (hfresh : dictMem data id = false) :
    (mkPatient id name city age gender hgt wgt).isOk = true ∧
    (createEndpoint data id "" "" age gender hgt wgt).1 = .ok 201 id ∧
    (dictGet? (createEndpoint data id "" "" age gender hgt wgt).2 id).map
      StoredRec.name = some "" ∧
    (dictGet? (createEndpoint data id "" "" age gender hgt wgt).2 id).map
      StoredRec.city = some "" := by
  obtain ⟨hp, h1, h2, h3, h4, h5⟩ := mkPatient_ok hmk
  subst hp
  refine ⟨?_, ?_, ?_, ?_⟩
  · rw [mkPatient_of_valid h1 h2 h3 h4 h5]
    rfl
  · simp [createEndpoint, hmk, create_patient, hfresh]
  · simp [createEndpoint, hmk, create_patient, hfresh, dictGet?_set_self,
      dumpPatient]
  · simp [createEndpoint, hmk, create_patient, hfresh, dictGet?_set_self,
      dumpPatient]

/-- Witness for C6 amended: creating "P2" with empty name and city over the
example collection. -/
theorem create_accepts_empty_name_city_witness :
    mkPatient "P2" "" "" 30 "male" 2 80 =
      .ok ⟨"P2", "", "", 30, "male", 2, 80⟩ ∧
    dictMem exampleColl "P2" = false ∧
    (mkPatient "P2" "Bob" "Z" 30 "male" 2 80).isOk = true ∧
    (createEndpoint exampleColl "P2" "" "" 30 "male" 2 80).1 = .ok 201 "P2" := by
  have hmk : mkPatient "P2" "" "" 30 "male" 2 80 =
      .ok ⟨"P2", "", "", 30, "male", 2, 80⟩ := by
    norm_num [mkPatient, genderValid]
  have h := create_accepts_empty_name_city exampleColl "P2" "Bob" "Z" 30
    "male" 2 80 ⟨"P2", "", "", 30, "male", 2, 80⟩ hmk rfl
  exact ⟨hmk, rfl, h.1, h.2.1⟩

/-- C5 counterexample: the partial-update payload `{age: 150}` passes
payload validation — age ≥ 120 is not rejected at payload parsing. -/
theorem payload_age_150_accepted_cex :
    mkPatientUpdate none none (some 150) none none none =
      .ok ⟨none, none, some 150, none, none, none⟩ := rfl

/-- C5 amended: payload validation enforces gt-0 on each supplied numeric
field and the literal set on a supplied gender — but, unlike the full
record, no upper bound on age: it accepts exactly the payloads whose
supplied age, height and weight are positive and whose supplied gender is
valid, so a payload age ≥ 120 passes parsing and is rejected only after the
merge by the full-record validation, which leaves the store unchanged. -/
theorem payload_validation_bounds :
    (∀ (name city : Option String) (age : Option ℤ) (gender : Option String)
      (hgt wgt : Option ℚ),
      (mkPatientUpdate name city age gender hgt wgt).isOk = true ↔
        ((∀ a ∈ age, 0 < a) ∧ (∀ g ∈ gender, genderValid g = true) ∧
         (∀ h ∈ hgt, 0 < h) ∧ (∀ w ∈ wgt, 0 < w))) ∧
    (∀ (data : Collection) (pid : String) (u : PatientUpdate)
      (rec : StoredRec), dictGet? data pid = some rec →
      120 ≤ u.age.getD rec.age →
      update_patient data pid u =
        (.err 500 "age: Input should be less than 120", data)) := by
  constructor
  · intro name city age gender hgt wgt
    unfold mkPatientUpdate
    split_ifs with hA hG hH hW
    · simp only [Except.isOk, Except.toBool, Bool.false_eq_true, false_iff]
      rintro ⟨r1, -, -, -⟩
      obtain ⟨a, ha, hpa⟩ := (option_any_eq_true _ _).mp hA
      have := r1 a ha
      simp at hpa
      omega
    · simp only [Except.isOk, Except.toBool, Bool.false_eq_true, false_iff]
      rintro ⟨-, r2, -, -⟩
      obtain ⟨g, hg, hpg⟩ := (option_any_eq_true _ _).mp hG
      simp [r2 g hg] at hpg
    · simp only [Except.isOk, Except.toBool, Bool.false_eq_true, false_iff]
      rintro ⟨-, -, r3, -⟩
      obtain ⟨h, hh, hph⟩ := (option_any_eq_true _ _).mp hH
      have := r3 h hh
      simp at hph
      linarith
    · simp only [Except.isOk, Except.toBool, Bool.false_eq_true, false_iff]
      rintro ⟨-, -, -, r4⟩
      obtain ⟨w, hw, hpw⟩ := (option_any_eq_true _ _).mp hW
      have := r4 w hw
      simp at hpw
      linarith
    · simp only [Except.isOk, Except.toBool, true_iff]
      refine ⟨?_, ?_, ?_, ?_⟩
      · intro a ha
        by_contra hc
        exact hA ((option_any_eq_true _ _).mpr ⟨a, ha, by simp; omega⟩)
      · intro g hg
        by_contra hc
        exact hG ((option_any_eq_true _ _).mpr ⟨g, hg, by simp [hc]⟩)
      · intro h hh
        by_contra hc
        exact hH ((option_any_eq_true _ _).mpr ⟨h, hh, by simp; linarith⟩)
      · intro w hw
        by_contra hc
        exact hW ((option_any_eq_true _ _).mpr ⟨w, hw, by simp; linarith⟩)
  · intro data pid u rec hget hage
    have h1 : (0 : ℤ) < u.age.getD rec.age := by omega
    have h2 : ¬ u.age.getD rec.age < 120 := by omega
    simp only [update_patient, hget, mkPatient, not_lt.mpr (le_of_lt h1),
      if_neg (not_not_intro h1), h2]
    simp [h1]

/-- Witness for C5 amended: `{age: 150}` parses fine but the update of
"P001" with it fails at full validation, leaving the store unchanged. -/
theorem payload_validation_bounds_witness :
    (mkPatientUpdate none none (some 150) none none none).isOk = true ∧
    dictGet? exampleColl "P001" = some exampleStored ∧
    (120 : ℤ) ≤ (PatientUpdate.mk none none (some 150) none none
      none).age.getD exampleStored.age ∧
    update_patient exampleColl "P001"
        (PatientUpdate.mk none none (some 150) none none none) =
      (.err 500 "age: Input should be less than 120", exampleColl) := by
  refine ⟨?_, rfl, by norm_num, ?_⟩
  · exact (payload_validation_bounds.1 none none (some 150) none none
      none).mpr (by simp)
  · exact payload_validation_bounds.2 exampleColl "P001" _ exampleStored rfl
      (by norm_num)

/-! ### Stable-sort lemmas -/

theorem insortK_perm {α : Type} (key : α → ℚ) (x : α) (l : List α) :
    (insortK key x l).Perm (x :: l) := by
  induction l with
  | nil => exact List.Perm.refl _
  | cons y ys ih =>
    unfold insortK
    by_cases h : key x ≤ key y
    · rw [if_pos h]
    · rw [if_neg h]
      exact (ih.cons y).trans (List.Perm.swap x y ys)

theorem sortedByKey_perm {α : Type} (key : α → ℚ) (l : List α) :
    (sortedByKey key l).Perm l := by
  induction l with
  | nil => exact List.Perm.refl _
  | cons x xs ih => exact (insortK_perm key x _).trans (ih.cons x)

theorem insortK_pairwise {α : Type} (key : α → ℚ) (x : α) (l : List α)
    (hl : l.Pairwise (fun a b => key a ≤ key b)) :
    (insortK key x l).Pairwise (fun a b => key a ≤ key b) := by
  induction l with
  | nil => simp [insortK]
  | cons y ys ih =>
    rw [List.pairwise_cons] at hl
    obtain ⟨hy, hys⟩ := hl
    unfold insortK
    by_cases h : key x ≤ key y
    · rw [if_pos h]
      refine List.pairwise_cons.mpr ⟨?_, List.pairwise_cons.mpr ⟨hy, hys⟩⟩
      intro b hb
      rcases List.mem_cons.mp hb with rfl | hb'
      · exact h
      · exact h.trans (hy b hb')
    · rw [if_neg h]
      refine List.pairwise_cons.mpr ⟨?_, ih hys⟩
      intro b hb
      have hb' := (insortK_perm key x ys).mem_iff.mp hb
      rcases List.mem_cons.mp hb' with rfl | hb''
      · exact le_of_not_le h
      · exact hy b hb''

theorem sortedByKey_pairwise {α : Type} (key : α → ℚ) (l : List α) :
    (sortedByKey key l).Pairwise (fun a b => key a ≤ key b) := by
  induction l with
  | nil => simp [sortedByKey]
  | cons x xs ih => exact insortK_pairwise key x _ ih

/-- Two sorted permutations of each other whose keys are all distinct are
equal. -/
theorem eq_of_perm_of_pairwise_of_nodup_keys {α : Type} (key : α → ℚ)
    (l₁ l₂ : List α) (hp : l₁.Perm l₂)
    (h₁ : l₁.Pairwise (fun a b => key a ≤ key b))
    (h₂ : l₂.Pairwise (fun a b => key a ≤ key b))
    (hnd : (l₁.map key).Nodup) : l₁ = l₂ := by
  induction l₁ generalizing l₂ with
  | nil => exact hp.symm.eq_nil.symm
  | cons a t₁ ih =>
    cases l₂ with
    | nil => exact absurd hp.eq_nil (by simp)
    | cons b t₂ =>
      rw [List.pairwise_cons] at h₁ h₂
      obtain ⟨ha, ht₁⟩ := h₁
      obtain ⟨hb, ht₂⟩ := h₂
      rw [List.map_cons, List.nodup_cons] at hnd
      obtain ⟨hka, hndt⟩ := hnd
      have hab : a = b := by
        have haMem : a ∈ b :: t₂ := hp.subset (List.mem_cons_self a t₁)
        rcases List.mem_cons.mp haMem with h | h
        · exact h
        · have hbMem : b ∈ a :: t₁ := hp.symm.subset (List.mem_cons_self b t₂)
          rcases List.mem_cons.mp hbMem with h' | h'
          · exact h'.symm
          · have hk : key a = key b := le_antisymm (ha b h') (hb a h)
            exact absurd (hk ▸ List.mem_map_of_mem key h') hka
      subst hab
      rw [ih t₂ hp.cons_inv ht₁ ht₂ hndt]

/-- Sorting a reversed list gives the same result as sorting the list when
all keys are distinct. -/
theorem sortedByKey_reverse_eq {α : Type} (key : α → ℚ) (l : List α)
    (hnd : (l.map key).Nodup) :
    sortedByKey key l.reverse = sortedByKey key l := by
  apply eq_of_perm_of_pairwise_of_nodup_keys key
  · exact ((sortedByKey_perm key l.reverse).trans (List.reverse_perm l)).trans
      (sortedByKey_perm key l).symm
  · exact sortedByKey_pairwise key l.reverse
  · exact sortedByKey_pairwise key l
  · exact ((((sortedByKey_perm key l.reverse).trans
      (List.reverse_perm l)).map key).symm).nodup hnd

/-- C4 counterexample: on a collection whose two records tie on bmi, the
descending sort equals the ascending sort (ties keep load order under
Python `reverse=True`), so it is not the reverse of the ascending output. -/
theorem sort_dsc_not_reverse_cex :
    (sort_patients tieColl "bmi" "asc").1 = .ok 200 [tieRec1, tieRec2] ∧
    (sort_patients tieColl "bmi" "dsc").1 = .ok 200 [tieRec1, tieRec2] ∧
    tieRec1.name ≠ tieRec2.name ∧
    (sort_patients tieColl "bmi" "dsc").1 ≠
      .ok 200 [tieRec1, tieRec2].reverse := by
  have e1 : "bmi" ≠ "height" := by decide
  have e2 : "bmi" ≠ "weight" := by decide
  have hasc : (sort_patients tieColl "bmi" "asc").1 = .ok 200 [tieRec1, tieRec2] := by
    simp [sort_patients, valid_sort_fields, pySorted, sortedByKey, insortK,
      sortKey, dictValues, tieColl, tieRec1, tieRec2, e1, e2]
  have hdsc : (sort_patients tieColl "bmi" "dsc").1 = .ok 200 [tieRec1, tieRec2] := by
    simp [sort_patients, valid_sort_fields, pySorted, sortedByKey, insortK,
      sortKey, dictValues, tieColl, tieRec1, tieRec2, e1, e2]
  refine ⟨hasc, hdsc, by simp [tieRec1, tieRec2], ?_⟩
  rw [hdsc]
  intro h
  simp only [List.reverse_cons, List.reverse_nil, List.nil_append,
    List.cons_append, HResp.ok.injEq, List.cons.injEq] at h
  exact absurd (congrArg StoredRec.name h.2.1) (by simp [tieRec1, tieRec2])

/-- C4 amended: descending order is Python's stable `reverse=True` sort, so
records with equal sort keys keep their load order (the same order as in
the ascending output, not reversed); when all sort keys are distinct the
descending output is exactly the reverse of the ascending output. -/
theorem sort_dsc_reverse_of_distinct (data : Collection) (sb : String)
    (hsb : sb ∈ valid_sort_fields)
    (hnd : ((dictValues data).map (sortKey sb)).Nodup) :
    ∃ l, (sort_patients data sb "asc").1 = .ok 200 l ∧
      (sort_patients data sb "dsc").1 = .ok 200 l.reverse := by
  refine ⟨sortedByKey (sortKey sb) (dictValues data), ?_, ?_⟩
  · simp [sort_patients, hsb, pySorted]
  · simp [sort_patients, hsb, pySorted, sortedByKey_reverse_eq _ _ hnd]

/-- Witness for C4 amended: bmi values 22 and 30 are distinct, so the
descending output is the reverse of the ascending one. -/
theorem sort_dsc_reverse_of_distinct_witness :
    "bmi" ∈ valid_sort_fields ∧
    ((dictValues distinctColl).map (sortKey "bmi")).Nodup ∧
    ∃ l, (sort_patients distinctColl "bmi" "asc").1 = .ok 200 l ∧
      (sort_patients distinctColl "bmi" "dsc").1 = .ok 200 l.reverse := by
  have e1 : "bmi" ≠ "height" := by decide
  have e2 : "bmi" ≠ "weight" := by decide
  have hnd : ((dictValues distinctColl).map (sortKey "bmi")).Nodup := by
    norm_num [dictValues, distinctColl, sortKey, tieRec1, distinctRec, e1, e2]
  exact ⟨by decide, hnd,
    sort_dsc_reverse_of_distinct distinctColl "bmi" (by decide) hnd⟩

end PatientApp
